import Mathlib

set_option maxRecDepth 8000

/-!
A shallow embedding of `src/github_issue_pr_label_verifier.py` (a GitHub
issue/PR label compliance checker) together with theorems settling the
specification claims about it.

The external world (HTTP transport, JSON parsing of the response, YAML
parsing of the config file) is modelled by passing the already-parsed
outcome in as data: an `HttpOutcome` per request, and a `Json` value for
the raw configuration mapping.  Python exceptions that the source code
does not catch are modelled with `Except PyErr`; text printed to stderr is
threaded through return values as a `List String` (the exact message text
is rendered in abbreviated ASCII, since only presence/absence of
diagnostics is observable to the claims).
-/

namespace LabelVerifier

/-- A JSON/YAML value, as produced by `response.json()` or `yaml.safe_load`.
Objects are association lists in key order (Python dicts preserve
insertion order and have no duplicate keys after parsing). -/
inductive Json where
  | null : Json
  | bool : Bool → Json
  | num : Int → Json
  | str : String → Json
  | arr : List Json → Json
  | obj : List (String × Json) → Json
deriving Repr

/-- Python truthiness of a parsed JSON value (`not result` in the source). -/
def Json.truthy : Json → Bool
  | .null => false
  | .bool b => b
  | .num n => n != 0
  | .str s => s != ""
  | .arr xs => !xs.isEmpty
  | .obj kvs => !kvs.isEmpty

/-- First-match lookup in an object's fields (Python dict indexing;
post-parse dicts have unique keys, so first match is the match). -/
def Json.lookup : List (String × Json) → String → Option Json
  | [], _ => none
  | (k, v) :: rest, key => if k == key then some v else Json.lookup rest key

/-- A Python exception that the verifier source does not catch. -/
inductive PyErr where
  | keyError : String → PyErr
  | typeError : String → PyErr
  | attributeError : String → PyErr
deriving Repr, DecidableEq

/-- The outcome of the single HTTP GET issued per item, as seen after the
transport layer: either a response (status code, raw text, and the result
of `response.json()`, which can itself fail on a non-JSON body), or a
raised transport exception with its message. -/
inductive HttpOutcome where
  | resp : Nat → String → Except String Json → HttpOutcome
  | exn : String → HttpOutcome
deriving Repr

/-! ## Fixed configuration constants (the `CONFIG` dictionary) -/

def success_status_code : Nat := 200
def not_found_status_code : Nat := 404
def response_truncate_length : Nat := 100
def issue_keyword : String := "Issue"
def pr_keyword : String := "PR"
/-- `CONFIG["VERIFICATION"]["sort_labels"]`, fixed `True` in the source. -/
def sort_labels : Bool := true

/-! ## `_get_github_api` -/

/-- Return value of `_get_github_api`: the `(success, result)` tuple the
Python function returns, together with the diagnostic lines it printed to
stderr (abbreviated renderings of the source's messages). -/
structure ApiResult where
  success : Bool
  result : Option Json
  stderr : List String
deriving Repr

/-- Embedding of `_get_github_api` (the URL construction and the request
itself are external; the function is parametrised by the request's
outcome).  200 yields `(True, response.json())`; a failing `.json()` call
on a 200 raises inside the `try` and is caught by the generic `except`,
like a transport exception; 404 yields `(False, None)` silently; any other
status yields `(False, None)` and prints a two-line diagnostic with the
status code and the response text truncated to 100 characters. -/
def get_github_api (endpoint : String) (outcome : HttpOutcome) : ApiResult :=
  match outcome with
  | .exn msg =>
      ⟨false, none, ["request exception (" ++ endpoint ++ "): " ++ msg]⟩
  | .resp status text body =>
      if status = success_status_code then
        match body with
        | .ok j => ⟨true, some j, []⟩
        | .error e =>
            ⟨false, none, ["request exception (" ++ endpoint ++ "): " ++ e]⟩
      else if status = not_found_status_code then
        ⟨false, none, []⟩
      else
        ⟨false, none,
          ["API error (" ++ endpoint ++ "): status " ++ toString status,
           "response truncated: " ++ text.take response_truncate_length]⟩

/-! ## `_get_item_labels` -/

/-- `result.get("labels", [])`: dict `.get` with default; calling `.get`
on a non-dict raises `AttributeError`. -/
def dictGetD (j : Json) (key : String) (dflt : Json) : Except PyErr Json :=
  match j with
  | .obj kvs => .ok ((Json.lookup kvs key).getD dflt)
  | _ => .error (.attributeError "get")

/-- Python iteration over a JSON value (`for label in ...`): lists yield
their elements, strings their one-character substrings, dicts their keys;
anything else raises `TypeError`. -/
def iterElems : Json → Except PyErr (List Json)
  | .arr xs => .ok xs
  | .str s => .ok (s.toList.map fun c => .str (String.mk [c]))
  | .obj kvs => .ok (kvs.map fun kv => .str kv.1)
  | _ => .error (.typeError "object is not iterable")

/-- `label["name"]`: string subscription of a Python value.  On a dict it
is a lookup raising `KeyError` when absent; on lists/strings a string
index raises `TypeError`; other values are not subscriptable. -/
def Json.subscript (j : Json) (key : String) : Except PyErr Json :=
  match j with
  | .obj kvs =>
      match Json.lookup kvs key with
      | some v => .ok v
      | none => .error (.keyError key)
  | .arr _ => .error (.typeError "list indices must be integers")
  | .str _ => .error (.typeError "string indices must be integers")
  | _ => .error (.typeError "object is not subscriptable")

/-- The comprehension `[label["name"] for label in elems]`: extract the
`"name"` field of each element left to right; the first raised exception
propagates. -/
def extract_names : List Json → Except PyErr (List Json)
  | [] => .ok []
  | l :: ls => do
      let v ← l.subscript "name"
      let vs ← extract_names ls
      .ok (v :: vs)

/-- Return value of `_get_item_labels`: the `Optional[List[str]]` result
(here `Option (List Json)`, since the comprehension extracts whatever
value sits under `"name"`), plus the stderr diagnostics emitted below it. -/
structure FetchResult where
  labels : Option (List Json)
  stderr : List String
deriving Repr

/-- Embedding of `_get_item_labels`: calls `_get_github_api` on
`issues/{item_number}`; returns `None` when the call failed or the parsed
body is falsy; otherwise extracts `label["name"]` for every entry of
`result.get("labels", [])`.  The extraction is outside any `try`, so a
malformed body makes the whole call raise (`Except.error`). -/
def get_item_labels (item_number : Int) (outcome : HttpOutcome) :
    Except PyErr FetchResult :=
  let api := get_github_api ("issues/" ++ toString item_number) outcome
  if !api.success || !(match api.result with
                       | some j => j.truthy
                       | none => false) then
    .ok ⟨none, api.stderr⟩
  else
    match api.result with
    | some j => do
        let labelsVal ← dictGetD j "labels" (.arr [])
        let elems ← iterElems labelsVal
        let names ← extract_names elems
        .ok ⟨some names, api.stderr⟩
    | none => .ok ⟨none, api.stderr⟩

/-! ## `load_project_config` -/

/-- Value of a non-empty all-digit run, most significant first. -/
def digitsVal : List Char → Nat → Option Nat
  | [], acc => some acc
  | c :: cs, acc =>
      if c.isDigit then digitsVal cs (acc * 10 + (c.toNat - 48)) else none

/-- Python `int(s)` on the characters of a string: surrounding whitespace
is stripped, an optional single sign is allowed, then a non-empty run of
decimal digits; anything else raises `ValueError`, modelled as `none`.
(Python's underscore separators and non-ASCII digits are not modelled; no
claim exercises them.) -/
def pyInt (cs : List Char) : Option Int :=
  let t := ((cs.dropWhile Char.isWhitespace).reverse.dropWhile
              Char.isWhitespace).reverse
  match t with
  | [] => none
  | '-' :: ds =>
      match ds with
      | [] => none
      | _ => (digitsVal ds 0).map (fun n => -(n : Int))
  | '+' :: ds =>
      match ds with
      | [] => none
      | _ => (digitsVal ds 0).map (fun n => (n : Int))
  | ds => (digitsVal ds 0).map (fun n => (n : Int))

/-- `s.split("-")`: split on every dash, keeping empty parts. -/
def splitOnDash : List Char → List (List Char)
  | [] => [[]]
  | c :: rest =>
      let r := splitOnDash rest
      if c = '-' then [] :: r
      else
        match r with
        | h :: t => (c :: h) :: t
        | [] => [[c]]

/-- Line 93: `issue_min, issue_max = map(int, config["issue_range"].split("-"))`.
Splitting must give exactly two parts (otherwise unpacking raises
`ValueError`) and both must parse as ints (otherwise `int` raises
`ValueError`); both failure modes are caught by the same `except
ValueError`, modelled as `none`. -/
def parse_issue_range (s : String) : Option (Int × Int) :=
  match splitOnDash s.toList with
  | [a, b] => do
      let issue_min ← pyInt a
      let issue_max ← pyInt b
      pure (issue_min, issue_max)
  | _ => none

/-- What a successful `load_project_config` hands back: the raw mapping
plus the `issue_min` / `issue_max` keys it adds. -/
structure LoadedConfig where
  raw : List (String × Json)
  issue_min : Int
  issue_max : Int
deriving Repr

/-- Embedding of `load_project_config` from the point where
`yaml.safe_load` has produced a value (file existence and IO are
external).  The three required fields are checked in order; then the
`issue_range` string is parsed.  Every failure path in the source prints
and calls `sys.exit(1)`, modelled as `Except.error` with a short tag; a
non-string `issue_range` (where `.split` raises `AttributeError`) and a
non-mapping document both land in the outer `except Exception` and exit
the same way. -/
def load_project_config (raw : Json) : Except String LoadedConfig :=
  match raw with
  | .obj kvs =>
      if (Json.lookup kvs "target_repo").isNone then
        .error "missing field target_repo"
      else if (Json.lookup kvs "expected_labels").isNone then
        .error "missing field expected_labels"
      else if (Json.lookup kvs "issue_range").isNone then
        .error "missing field issue_range"
      else
        match Json.lookup kvs "issue_range" with
        | some ir =>
            match ir with
            | .str s =>
                (match parse_issue_range s with
                 | some (issue_min, issue_max) =>
                     .ok ⟨kvs, issue_min, issue_max⟩
                 | none => .error "issue_range format")
            | _ => .error "issue_range is not a string"
        | none => .error "missing field issue_range"
  | _ => .error "config is not a mapping"

/-! ## `run_verification` -/

/-- The validated in-memory configuration `run_verification` consumes:
`target_repo`, the parsed `issue_min`/`issue_max` bounds, and the
`expected_labels` mapping as an association list in insertion order
(Python dicts iterate in insertion order).  Per the config invariant the
expected label values are strings. -/
structure VConfig where
  target_repo : String
  issue_min : Int
  issue_max : Int
  expected_labels : List (Int × List String)
deriving Repr

/-- The Issue/PR classification of lines 157-159: `issue_keyword` when
`issue_min <= item_number <= issue_max`, else `pr_keyword`. -/
def classify_item (issue_min issue_max item_number : Int) : String :=
  if issue_min ≤ item_number && item_number ≤ issue_max then issue_keyword
  else pr_keyword

/-- Lexicographic comparison of character lists by Unicode code point:
Python's `<=` on strings. -/
def charListLe : List Char → List Char → Bool
  | [], _ => true
  | _ :: _, [] => false
  | c :: cs, d :: ds =>
      if c.toNat < d.toNat then true
      else if c.toNat = d.toNat then charListLe cs ds
      else false

/-- Python's `<=` on strings (code-point lexicographic order). -/
def strLe (a b : String) : Bool := charListLe a.toList b.toList

/-- Rank used to totalise the element order `sorted` needs. -/
def Json.rank : Json → Nat
  | .null => 0
  | .bool _ => 1
  | .num _ => 2
  | .str _ => 3
  | .arr _ => 4
  | .obj _ => 5

/-- The element comparison Python's `sorted` applies to extracted label
names.  On homogeneous strings (the only case any claim exercises, and the
only shape the remote API produces) it is Python's lexicographic
code-point order; heterogeneous or non-ordered elements, where Python's
`sorted` would raise `TypeError`, are totalised by constructor rank so the
embedding stays a function. -/
def jsonLe (a b : Json) : Bool :=
  match a, b with
  | .str s, .str t => strLe s t
  | .num m, .num n => m ≤ n
  | .bool x, .bool y => !x || y
  | _, _ => a.rank ≤ b.rank

/-- Python `==` between one fetched label value (an arbitrary JSON value)
and one expected label (a string): true exactly when the value is that
string.  (Python's `True == 1` numeric-bool corner does not arise: one
side is always a `str`.) -/
def jsonEqStr (a : Json) (e : String) : Bool :=
  match a with
  | .str s => s == e
  | _ => false

/-- Python `==` between the list of fetched label values and the list of
expected label strings: same length and elementwise equal. -/
def labelListEq : List Json → List String → Bool
  | [], [] => true
  | a :: as, e :: es => jsonEqStr a e && labelListEq as es
  | _, _ => false

/-- Insert `a` into `l` before the first element it is `le`-below. -/
def insort (le : α → α → Bool) (a : α) : List α → List α
  | [] => [a]
  | b :: bs => if le a b then a :: b :: bs else b :: insort le a bs

/-- Embedding of Python's `sorted`, as a structural insertion sort: on a
transitive, total, antisymmetric element order (lexicographic order on
strings, the only case the program's data reaches) every correct sort
returns the same list, so the choice of algorithm is immaterial. -/
def pySorted (le : α → α → Bool) (xs : List α) : List α :=
  xs.foldr (insort le) []

/-- The label comparison of lines 169-173: sort both sides when the
`sort_labels` flag is set (it is fixed `true`), then compare with `==`.
The expected side is a list of strings from the config; the actual side is
whatever JSON values the fetch extracted, so the Python `==` crosses types
and is embedded by injecting the expected strings into `Json`. -/
def compare_labels (expected : List String) (actual : List Json) : Bool :=
  let actual_sorted := if sort_labels then pySorted jsonLe actual else actual
  let expected_sorted :=
    if sort_labels then pySorted strLe expected else expected
  labelListEq actual_sorted expected_sorted

/-- One per-item record of what an iteration of the loop observed: the
item number, its Issue/PR classification, the pass flag, and both label
sequences (the actual one absent when the fetch failed).  The source
prints these facts rather than storing them; recording them makes the
loop's per-item behaviour statable. -/
structure ItemResult where
  item_number : Int
  item_type : String
  passed : Bool
  expected : List String
  actual : Option (List Json)
deriving Repr

/-- One iteration of the loop body of `run_verification` (lines 155-179)
for entry `(item_number, expected)`: classify, fetch (one request via
`fetcher`), record a failure on an absent label list, otherwise record the
sorted comparison.  A `PyErr` raised by the unguarded label extraction
propagates. -/
def verify_item (cfg : VConfig) (fetcher : Int → HttpOutcome)
    (item_number : Int) (expected : List String) : Except PyErr ItemResult := do
  let item_type := classify_item cfg.issue_min cfg.issue_max item_number
  let fr ← get_item_labels item_number (fetcher item_number)
  match fr.labels with
  | none => .ok ⟨item_number, item_type, false, expected, none⟩
  | some actual =>
      .ok ⟨item_number, item_type, compare_labels expected actual, expected,
           some actual⟩

/-- The loop of `run_verification`, threading the `all_passed` accumulator
exactly as the source does (it starts `True` and is set to `False` on a
fetch failure or mismatch, i.e. conjoined with each item's pass flag). -/
def run_loop (cfg : VConfig) (fetcher : Int → HttpOutcome) :
    List (Int × List String) → Bool → Except PyErr (List ItemResult × Bool)
  | [], all_passed => .ok ([], all_passed)
  | (n, expected) :: rest, all_passed => do
      let r ← verify_item cfg fetcher n expected
      let (rs, final) ← run_loop cfg fetcher rest (all_passed && r.passed)
      .ok (r :: rs, final)

/-- The report a run produces: the per-item records in iteration order and
the final `all_passed` boolean, which is the value `run_verification`
returns. -/
structure Report where
  results : List ItemResult
  all_passed : Bool
deriving Repr

/-- Embedding of `run_verification`: iterate over the `expected_labels`
entries in insertion order with `all_passed` initially `True`; the
returned boolean is the loop's final accumulator. -/
def run_verification (cfg : VConfig) (fetcher : Int → HttpOutcome) :
    Except PyErr Report := do
  let (rs, all_passed) ← run_loop cfg fetcher cfg.expected_labels true
  .ok ⟨rs, all_passed⟩

/-! ## Shape predicates used to state the amended safety claim -/

/-- A label object the extraction `label["name"]` cannot fail on: a dict
carrying a `"name"` key. -/
def label_has_name : Json → Bool
  | .obj kvs => (Json.lookup kvs "name").isSome
  | _ => false

/-- Exactly the `labels` values the comprehension cannot raise on: an
array of label objects each carrying a `"name"` key, or an iterable with
no elements (empty string, empty dict) — iterating those yields nothing,
so no subscription is attempted. -/
def safe_labels_val : Json → Bool
  | .arr ls => ls.all label_has_name
  | .str s => s == ""
  | .obj kvs => kvs.isEmpty
  | _ => false

/-- Exactly the 200-response bodies the unguarded extraction in
`_get_item_labels` resolves on: either falsy (returned as `None` before
any access), or a dict whose `"labels"` value, when present, is
`safe_labels_val`-shaped. -/
def safe_body (j : Json) : Bool :=
  !j.truthy ||
  (match j with
   | .obj kvs =>
       match Json.lookup kvs "labels" with
       | none => true
       | some lv => safe_labels_val lv
   | _ => false)

/-- Projection inverse to `Json.str` on string values (proof device for
relating the JSON-level sort to the string-level sort). -/
def Json.asStr : Json → String
  | .str s => s
  | _ => ""

/-! ## Order lemmas for the sorting comparison -/

theorem charListLe_trans :
    ∀ a b c : List Char, charListLe a b = true → charListLe b c = true →
      charListLe a c = true := by
  intro a
  induction a with
  | nil => intro b c _ _; rfl
  | cons x xs ih =>
      intro b c hab hbc
      cases b with
      | nil => simp [charListLe] at hab
      | cons y ys =>
          cases c with
          | nil => simp [charListLe] at hbc
          | cons z zs =>
              simp only [charListLe] at hab hbc ⊢
              by_cases hxy : x.toNat < y.toNat <;>
                by_cases hyz : y.toNat < z.toNat <;>
                by_cases hxy2 : x.toNat = y.toNat <;>
                by_cases hyz2 : y.toNat = z.toNat <;>
                simp_all <;>
                first
                  | omega
                  | (exact ih ys zs hab hbc)

theorem charListLe_total :
    ∀ a b : List Char, charListLe a b = true ∨ charListLe b a = true := by
  intro a
  induction a with
  | nil => intro b; left; rfl
  | cons x xs ih =>
      intro b
      cases b with
      | nil => right; rfl
      | cons y ys =>
          simp only [charListLe]
          by_cases hxy : x.toNat < y.toNat
          · simp [hxy]
          · by_cases hxy2 : x.toNat = y.toNat
            · simp only [if_neg hxy, if_pos hxy2, if_neg (by omega : ¬ y.toNat < x.toNat), if_pos hxy2.symm]
              exact ih ys
            · have hyx : y.toNat < x.toNat := by omega
              simp [hxy, hxy2, hyx]

theorem char_eq_of_toNat_eq {x y : Char} (h : x.toNat = y.toNat) : x = y :=
  Char.eq_of_val_eq (UInt32.toNat.inj h)

theorem charListLe_antisymm :
    ∀ a b : List Char, charListLe a b = true → charListLe b a = true →
      a = b := by
  intro a
  induction a with
  | nil =>
      intro b _ hba
      cases b with
      | nil => rfl
      | cons y ys => simp [charListLe] at hba
  | cons x xs ih =>
      intro b hab hba
      cases b with
      | nil => simp [charListLe] at hab
      | cons y ys =>
          simp only [charListLe] at hab hba
          by_cases hxy : x.toNat < y.toNat
          · rw [if_neg (by omega), if_neg (by omega : ¬ y.toNat = x.toNat)]
              at hba
            simp at hba
          · by_cases hxy2 : x.toNat = y.toNat
            · have hc : x = y := char_eq_of_toNat_eq hxy2
              subst hc
              rw [if_neg hxy, if_pos hxy2] at hab
              rw [if_neg hxy, if_pos hxy2] at hba
              rw [ih ys hab hba]
            · rw [if_neg hxy, if_neg hxy2] at hab
              simp at hab

theorem strLe_trans (a b c : String) :
    strLe a b = true → strLe b c = true → strLe a c = true :=
  charListLe_trans a.toList b.toList c.toList

theorem strLe_total (a b : String) : strLe a b = true ∨ strLe b a = true :=
  charListLe_total a.toList b.toList

theorem strLe_antisymm (a b : String) :
    strLe a b = true → strLe b a = true → a = b := by
  intro hab hba
  have h := charListLe_antisymm a.toList b.toList hab hba
  cases a; cases b
  exact congrArg String.mk (by simpa [String.toList] using h)

theorem jsonLe_str (a b : String) :
    jsonLe (Json.str a) (Json.str b) = strLe a b := rfl

theorem jsonLe_trans :
    ∀ a b c : Json, jsonLe a b = true → jsonLe b c = true →
      jsonLe a c = true := by
  intro a b c hab hbc
  cases a <;> cases b <;> cases c <;>
    simp_all [jsonLe, Json.rank] <;>
    first
      | omega
      | (exact strLe_trans _ _ _ hab hbc)
      | tauto
      | (rename_i x y z; cases x <;> cases y <;> cases z <;> simp_all)

theorem jsonLe_total :
    ∀ a b : Json, jsonLe a b = true ∨ jsonLe b a = true := by
  intro a b
  cases a <;> cases b <;>
    simp_all [jsonLe, Json.rank] <;>
    first
      | omega
      | (exact strLe_total _ _)
      | tauto
      | (rename_i x y; cases x <;> cases y <;> simp)

/-! ## Insertion-sort lemmas -/

theorem mem_insort (le : α → α → Bool) (a x : α) :
    ∀ l : List α, x ∈ insort le a l ↔ x = a ∨ x ∈ l := by
  intro l
  induction l with
  | nil => simp [insort]
  | cons b bs ih =>
      simp only [insort]
      by_cases h : le a b
      · rw [if_pos h]; simp
      · rw [if_neg h]; simp [ih]; tauto

theorem insort_perm (le : α → α → Bool) (a : α) :
    ∀ l : List α, (insort le a l).Perm (a :: l) := by
  intro l
  induction l with
  | nil => exact List.Perm.refl _
  | cons b bs ih =>
      simp only [insort]
      by_cases h : le a b
      · rw [if_pos h]
      · rw [if_neg h]
        exact (ih.cons b).trans (List.Perm.swap a b bs)

theorem pySorted_perm (le : α → α → Bool) :
    ∀ xs : List α, (pySorted le xs).Perm xs := by
  intro xs
  induction xs with
  | nil => exact List.Perm.refl _
  | cons x xs ih => exact (insort_perm le x _).trans (ih.cons x)

theorem pairwise_insort (le : α → α → Bool)
    (htrans : ∀ a b c, le a b = true → le b c = true → le a c = true)
    (htotal : ∀ a b, le a b = true ∨ le b a = true) (a : α) :
    ∀ l : List α, l.Pairwise (fun u v => le u v = true) →
      (insort le a l).Pairwise (fun u v => le u v = true) := by
  intro l hl
  induction l with
  | nil => simp [insort]
  | cons b bs ih =>
      rcases List.pairwise_cons.mp hl with ⟨hb, hbs⟩
      simp only [insort]
      by_cases h : le a b
      · rw [if_pos h]
        refine List.pairwise_cons.mpr ⟨?_, hl⟩
        intro x hx
        rcases List.mem_cons.mp hx with rfl | hx
        · exact h
        · exact htrans a b x h (hb x hx)
      · rw [if_neg h]
        refine List.pairwise_cons.mpr ⟨?_, ih hbs⟩
        intro x hx
        rcases (mem_insort le a x bs).mp hx with rfl | hx
        · cases htotal x b with
          | inl hab => exact absurd hab h
          | inr hba => exact hba
        · exact hb x hx

theorem pairwise_pySorted (le : α → α → Bool)
    (htrans : ∀ a b c, le a b = true → le b c = true → le a c = true)
    (htotal : ∀ a b, le a b = true ∨ le b a = true) :
    ∀ xs : List α, (pySorted le xs).Pairwise (fun u v => le u v = true) := by
  intro xs
  induction xs with
  | nil => simp [pySorted]
  | cons x xs ih => exact pairwise_insort le htrans htotal x _ ih

/-- Two `strLe`-sorted lists that are permutations of each other are
equal (the order is total and antisymmetric on strings). -/
theorem sorted_perm_eq_str {l₁ l₂ : List String}
    (hp : l₁.Perm l₂)
    (h₁ : l₁.Pairwise (fun u v => strLe u v = true))
    (h₂ : l₂.Pairwise (fun u v => strLe u v = true)) : l₁ = l₂ :=
  @List.eq_of_perm_of_sorted String (fun u v => strLe u v = true)
    ⟨strLe_antisymm⟩ l₁ l₂ hp h₁ h₂

/-- Sorting is invariant under permutation (for the string order). -/
theorem pySorted_strLe_perm_eq {l₁ l₂ : List String} (hp : l₁.Perm l₂) :
    pySorted strLe l₁ = pySorted strLe l₂ :=
  sorted_perm_eq_str
    (((pySorted_perm strLe l₁).trans hp).trans (pySorted_perm strLe l₂).symm)
    (pairwise_pySorted strLe strLe_trans strLe_total l₁)
    (pairwise_pySorted strLe strLe_trans strLe_total l₂)

/-- Conversely, equal sorts force the lists to be permutations. -/
theorem perm_of_pySorted_strLe_eq {l₁ l₂ : List String}
    (h : pySorted strLe l₁ = pySorted strLe l₂) : l₁.Perm l₂ :=
  ((pySorted_perm strLe l₁).symm.trans (h ▸ List.Perm.refl _)).trans
    (pySorted_perm strLe l₂)

/-! ## Sorting and comparing string-valued labels -/

theorem insort_map_str (a : String) :
    ∀ l : List String,
      insort jsonLe (Json.str a) (l.map Json.str) =
        (insort strLe a l).map Json.str := by
  intro l
  induction l with
  | nil => rfl
  | cons b bs ih =>
      simp only [List.map, insort, jsonLe_str]
      by_cases h : strLe a b
      · rw [if_pos h, if_pos h]; rfl
      · rw [if_neg h, if_neg h, ih]; rfl

theorem pySorted_map_str :
    ∀ xs : List String,
      pySorted jsonLe (xs.map Json.str) =
        (pySorted strLe xs).map Json.str := by
  intro xs
  induction xs with
  | nil => rfl
  | cons x xs ih =>
      show insort jsonLe (Json.str x) (pySorted jsonLe (xs.map Json.str)) = _
      rw [ih, insort_map_str]
      rfl

theorem labelListEq_map_str :
    ∀ xs ys : List String,
      labelListEq (xs.map Json.str) ys = true ↔ xs = ys := by
  intro xs
  induction xs with
  | nil =>
      intro ys
      cases ys <;> simp [labelListEq]
  | cons x xs ih =>
      intro ys
      cases ys with
      | nil => simp [labelListEq]
      | cons y ys =>
          simp only [List.map, labelListEq, jsonEqStr, Bool.and_eq_true,
            beq_iff_eq, List.cons.injEq]
          rw [ih]

theorem labelListEq_nil_right :
    ∀ xs : List Json, labelListEq xs [] = true ↔ xs = [] := by
  intro xs
  cases xs <;> simp [labelListEq]

/-! ## Fetch-layer evaluation lemmas -/

theorem get_github_api_200 (ep txt : String) (j : Json) :
    get_github_api ep (.resp success_status_code txt (.ok j)) =
      ⟨true, some j, []⟩ := rfl

theorem get_github_api_404 (ep txt : String) (body : Except String Json) :
    get_github_api ep (.resp not_found_status_code txt body) =
      ⟨false, none, []⟩ := rfl

theorem get_github_api_other (ep txt : String) (body : Except String Json)
    (status : Nat) (h200 : status ≠ success_status_code)
    (h404 : status ≠ not_found_status_code) :
    get_github_api ep (.resp status txt body) =
      ⟨false, none,
        ["API error (" ++ ep ++ "): status " ++ toString status,
         "response truncated: " ++ txt.take response_truncate_length]⟩ := by
  simp [get_github_api, h200, h404]

theorem get_github_api_success_false (ep txt : String)
    (body : Except String Json) (status : Nat) (e : String)
    (hbody : body = .error e ∨ status ≠ success_status_code) :
    (get_github_api ep (.resp status txt body)).success = false := by
  by_cases h200 : status = success_status_code
  · rcases hbody with rfl | hne
    · subst h200; rfl
    · exact absurd h200 hne
  · by_cases h404 : status = not_found_status_code
    · subst h404; rfl
    · rw [get_github_api_other ep txt body status h200 h404]

/-- Any `_get_github_api` failure makes `_get_item_labels` return `None`
with the same stderr. -/
theorem get_item_labels_fail (n : Int) (o : HttpOutcome)
    (h : (get_github_api ("issues/" ++ toString n) o).success = false) :
    get_item_labels n o =
      .ok ⟨none, (get_github_api ("issues/" ++ toString n) o).stderr⟩ := by
  simp [get_item_labels, h]

theorem get_item_labels_404 (n : Int) (txt : String)
    (body : Except String Json) :
    get_item_labels n (.resp not_found_status_code txt body) =
      .ok ⟨none, []⟩ := by
  have h := get_item_labels_fail n (.resp not_found_status_code txt body)
    (by rw [get_github_api_404])
  rw [h, get_github_api_404]

theorem get_item_labels_falsy (n : Int) (txt : String) (body : Json)
    (h : body.truthy = false) :
    get_item_labels n (.resp success_status_code txt (.ok body)) =
      .ok ⟨none, []⟩ := by
  simp [get_item_labels, get_github_api, h]

theorem extract_names_ok :
    ∀ ls : List Json, ls.all label_has_name = true →
      ∃ names, extract_names ls = Except.ok names := by
  intro ls
  induction ls with
  | nil => intro _; exact ⟨[], rfl⟩
  | cons l ls ih =>
      intro h
      rw [List.all_cons, Bool.and_eq_true] at h
      obtain ⟨names, hnames⟩ := ih h.2
      cases l with
      | obj kvs =>
          have h1 := h.1
          rw [label_has_name] at h1
          cases hv : Json.lookup kvs "name" with
          | none => rw [hv] at h1; simp at h1
          | some v =>
              refine ⟨v :: names, ?_⟩
              rw [extract_names]
              simp [Json.subscript, hv, hnames, Bind.bind, Except.bind]
      | null => simp [label_has_name] at h
      | bool b => simp [label_has_name] at h
      | num m => simp [label_has_name] at h
      | str s => simp [label_has_name] at h
      | arr xs => simp [label_has_name] at h

/-- The 200-with-truthy-dict path of `_get_item_labels` when the body has
no `labels` key: the default `[]` makes the extraction succeed with no
names. -/
theorem get_item_labels_no_labels_key (n : Int) (txt : String)
    (kvs : List (String × Json)) (hne : kvs ≠ [])
    (hlk : Json.lookup kvs "labels" = none) :
    get_item_labels n (.resp success_status_code txt (.ok (.obj kvs))) =
      .ok ⟨some [], []⟩ := by
  have htr : (Json.obj kvs).truthy = true := by
    simp [Json.truthy, hne]
  simp [get_item_labels, get_github_api, htr, dictGetD, hlk, iterElems,
    extract_names, Bind.bind, Except.bind]


/-- A successful `label["name"]` subscription forces the label to be a
dict carrying the key. -/
theorem label_has_name_of_subscript (l v : Json)
    (h : l.subscript "name" = .ok v) : label_has_name l = true := by
  cases l with
  | obj kvs =>
      rw [label_has_name]
      cases hv : Json.lookup kvs "name" with
      | none => simp [Json.subscript, hv] at h
      | some w => simp [hv]
  | null => simp [Json.subscript] at h
  | bool b => simp [Json.subscript] at h
  | num m => simp [Json.subscript] at h
  | str sv => simp [Json.subscript] at h
  | arr xs => simp [Json.subscript] at h

/-- Conversely to `extract_names_ok`: a successful extraction forces every
element to be a label object carrying a `"name"` key. -/
theorem extract_names_all :
    ∀ (ls : List Json) (names : List Json),
      extract_names ls = .ok names → ls.all label_has_name = true := by
  intro ls
  induction ls with
  | nil => intro names _; rfl
  | cons l rest ih =>
      intro names h
      rw [extract_names] at h
      cases hs : l.subscript "name" with
      | error e => rw [hs] at h; simp [Bind.bind, Except.bind] at h
      | ok v =>
          rw [hs] at h
          simp only [Bind.bind, Except.bind] at h
          cases hr : extract_names rest with
          | error e => rw [hr] at h; simp at h
          | ok vs =>
              rw [List.all_cons, Bool.and_eq_true]
              exact ⟨label_has_name_of_subscript l v hs, ih vs hr⟩

theorem string_eq_empty_of_toList (s : String) (h : s.toList = []) :
    s = "" := by
  obtain ⟨data⟩ := s
  simp [String.toList] at h
  subst h
  rfl

/-- The 200-with-truthy-dict path of `_get_item_labels` when a `labels`
value is present: the call is the iteration followed by the extraction. -/
theorem get_item_labels_200_obj (n : Int) (txt : String)
    (kvs : List (String × Json)) (lv : Json)
    (htr : (Json.obj kvs).truthy = true)
    (hlk : Json.lookup kvs "labels" = some lv) :
    get_item_labels n (.resp success_status_code txt (.ok (.obj kvs))) =
      (match iterElems lv with
       | .error e => .error e
       | .ok elems =>
           match extract_names elems with
           | .error e => .error e
           | .ok names => .ok ⟨some names, []⟩) := by
  cases hie : iterElems lv with
  | error e =>
      simp [get_item_labels, get_github_api, htr, dictGetD, hlk, hie,
        Bind.bind, Except.bind]
  | ok elems =>
      cases hex : extract_names elems with
      | error e =>
          simp [get_item_labels, get_github_api, htr, dictGetD, hlk, hie,
            hex, Bind.bind, Except.bind]
      | ok names =>
          simp [get_item_labels, get_github_api, htr, dictGetD, hlk, hie,
            hex, Bind.bind, Except.bind]

/-! ## Loop-body and loop lemmas -/

theorem verify_item_none (cfg : VConfig) (fetcher : Int → HttpOutcome)
    (n : Int) (expected : List String) (errs : List String)
    (h : get_item_labels n (fetcher n) = .ok ⟨none, errs⟩) :
    verify_item cfg fetcher n expected =
      .ok ⟨n, classify_item cfg.issue_min cfg.issue_max n, false,
           expected, none⟩ := by
  simp [verify_item, h, Bind.bind, Except.bind]

theorem verify_item_some (cfg : VConfig) (fetcher : Int → HttpOutcome)
    (n : Int) (expected : List String) (actual : List Json)
    (errs : List String)
    (h : get_item_labels n (fetcher n) = .ok ⟨some actual, errs⟩) :
    verify_item cfg fetcher n expected =
      .ok ⟨n, classify_item cfg.issue_min cfg.issue_max n,
           compare_labels expected actual, expected, some actual⟩ := by
  simp [verify_item, h, Bind.bind, Except.bind]

theorem verify_item_item_type (cfg : VConfig) (fetcher : Int → HttpOutcome)
    (n : Int) (expected : List String) (r : ItemResult)
    (h : verify_item cfg fetcher n expected = .ok r) :
    r.item_type = classify_item cfg.issue_min cfg.issue_max n := by
  cases hf : get_item_labels n (fetcher n) with
  | error e =>
      rw [verify_item, hf] at h
      simp [Bind.bind, Except.bind] at h
  | ok fr =>
      obtain ⟨labels, errs⟩ := fr
      cases labels with
      | none =>
          rw [verify_item_none cfg fetcher n expected errs hf] at h
          cases h
          rfl
      | some actual =>
          rw [verify_item_some cfg fetcher n expected actual errs hf] at h
          cases h
          rfl

theorem run_loop_all_passed (cfg : VConfig) (fetcher : Int → HttpOutcome) :
    ∀ (items : List (Int × List String)) (ap : Bool)
      (rs : List ItemResult) (fin : Bool),
      run_loop cfg fetcher items ap = .ok (rs, fin) →
      fin = (ap && rs.all (fun r => r.passed)) := by
  intro items
  induction items with
  | nil =>
      intro ap rs fin h
      rw [run_loop] at h
      cases h
      simp
  | cons p rest ih =>
      obtain ⟨n, expected⟩ := p
      intro ap rs fin h
      rw [run_loop] at h
      cases hv : verify_item cfg fetcher n expected with
      | error e => rw [hv] at h; simp [Bind.bind, Except.bind] at h
      | ok r =>
          rw [hv] at h
          simp only [Bind.bind, Except.bind] at h
          cases hr : run_loop cfg fetcher rest (ap && r.passed) with
          | error e => rw [hr] at h; simp [Bind.bind, Except.bind] at h
          | ok pr =>
              obtain ⟨rs', fin'⟩ := pr
              rw [hr] at h
              simp [Bind.bind, Except.bind] at h
              obtain ⟨hrs, hfin⟩ := h
              subst hrs; subst hfin
              have := ih (ap && r.passed) rs' fin' hr
              rw [this, List.all_cons, Bool.and_assoc]

theorem run_loop_keys (cfg : VConfig) (fetcher : Int → HttpOutcome) :
    ∀ (items : List (Int × List String)) (ap : Bool)
      (rs : List ItemResult) (fin : Bool),
      run_loop cfg fetcher items ap = .ok (rs, fin) →
      rs.map (fun r => (r.item_number, r.expected)) = items := by
  intro items
  induction items with
  | nil =>
      intro ap rs fin h
      rw [run_loop] at h
      cases h
      rfl
  | cons p rest ih =>
      obtain ⟨n, expected⟩ := p
      intro ap rs fin h
      rw [run_loop] at h
      cases hv : verify_item cfg fetcher n expected with
      | error e => rw [hv] at h; simp [Bind.bind, Except.bind] at h
      | ok r =>
          rw [hv] at h
          simp only [Bind.bind, Except.bind] at h
          cases hr : run_loop cfg fetcher rest (ap && r.passed) with
          | error e => rw [hr] at h; simp [Bind.bind, Except.bind] at h
          | ok pr =>
              obtain ⟨rs', fin'⟩ := pr
              rw [hr] at h
              simp [Bind.bind, Except.bind] at h
              obtain ⟨hrs, hfin⟩ := h
              subst hrs
              have hkeys := ih (ap && r.passed) rs' fin' hr
              have hitem : r.item_number = n ∧ r.expected = expected := by
                cases hf : get_item_labels n (fetcher n) with
                | error e =>
                    rw [verify_item, hf] at hv
                    simp [Bind.bind, Except.bind] at hv
                | ok fr =>
                    obtain ⟨labels, errs⟩ := fr
                    cases labels with
                    | none =>
                        rw [verify_item_none cfg fetcher n expected errs hf]
                          at hv
                        cases hv
                        exact ⟨rfl, rfl⟩
                    | some actual =>
                        rw [verify_item_some cfg fetcher n expected actual
                          errs hf] at hv
                        cases hv
                        exact ⟨rfl, rfl⟩
              simp [hitem.1, hitem.2, hkeys]

theorem labelListEq_nil_left :
    ∀ es : List String, labelListEq [] es = true ↔ es = [] := by
  intro es
  cases es <;> simp [labelListEq]

theorem pySorted_strLe_eq_nil (l : List String) :
    pySorted strLe l = [] ↔ l = [] := by
  constructor
  · intro h
    have hp := pySorted_perm strLe l
    rw [h] at hp
    exact hp.symm.eq_nil
  · intro h
    subst h
    rfl

/-- A fetch failure at the head entry: the loop records it as failed and
then behaves on the tail exactly as a fresh loop with a falsified
accumulator. -/
theorem run_loop_cons_none (cfg : VConfig) (fetcher : Int → HttpOutcome)
    (n : Int) (expected : List String) (rest : List (Int × List String))
    (ap : Bool) (errs : List String)
    (h : get_item_labels n (fetcher n) = .ok ⟨none, errs⟩) :
    run_loop cfg fetcher ((n, expected) :: rest) ap =
      (run_loop cfg fetcher rest false).map
        (fun p =>
          (⟨n, classify_item cfg.issue_min cfg.issue_max n, false,
             expected, none⟩ :: p.1, p.2)) := by
  rw [run_loop, verify_item_none cfg fetcher n expected errs h]
  simp only [Bind.bind, Except.bind]
  rw [Bool.and_false]
  cases hr : run_loop cfg fetcher rest false with
  | error e => simp [Except.map]
  | ok pr =>
      obtain ⟨rs, fin⟩ := pr
      simp [Except.map]

/-! ## The claims -/

/-- Claim C1: the boolean `run_verification` returns equals the
conjunction of the per-item passed flags over all recorded results, and an
empty `expected_labels` mapping yields a vacuous pass (`True`, with no
results). -/
theorem claim_C1 :
    (∀ (cfg : VConfig) (fetcher : Int → HttpOutcome) (rep : Report),
        run_verification cfg fetcher = .ok rep →
        rep.all_passed = rep.results.all (fun r => r.passed))
    ∧ (∀ (cfg : VConfig) (fetcher : Int → HttpOutcome),
        cfg.expected_labels = [] →
        run_verification cfg fetcher = .ok ⟨[], true⟩) := by
  constructor
  · intro cfg fetcher rep h
    rw [run_verification] at h
    cases hr : run_loop cfg fetcher cfg.expected_labels true with
    | error e => rw [hr] at h; simp [Bind.bind, Except.bind] at h
    | ok pr =>
        obtain ⟨rs, fin⟩ := pr
        rw [hr] at h
        simp [Bind.bind, Except.bind] at h
        subst h
        have := run_loop_all_passed cfg fetcher cfg.expected_labels true
          rs fin hr
        simpa using this
  · intro cfg fetcher h
    rw [run_verification, h, run_loop]
    rfl

/-- Witness for C1 at a two-item and an empty configuration. -/
theorem claim_C1_witness :
    (run_verification ⟨"r", 1, 2, [(1, ["bug"])]⟩
        (fun _ => .resp not_found_status_code "" (.ok .null)) =
      .ok ⟨[⟨1, issue_keyword, false, ["bug"], none⟩], false⟩)
    ∧ (⟨[⟨1, issue_keyword, false, ["bug"], none⟩], false⟩ : Report).all_passed
        = ([⟨1, issue_keyword, false, ["bug"], none⟩] :
            List ItemResult).all (fun r => r.passed)
    ∧ run_verification ⟨"r", 1, 2, []⟩ (fun _ => .exn "x") = .ok ⟨[], true⟩ :=
  ⟨rfl, claim_C1.1 ⟨"r", 1, 2, [(1, ["bug"])]⟩
      (fun _ => .resp not_found_status_code "" (.ok .null)) _ rfl,
    claim_C1.2 ⟨"r", 1, 2, []⟩ (fun _ => .exn "x") rfl⟩

/-- Claim C2: an item whose fetch yields no label list (not-found or
transient error) is recorded as failed with no actual labels, and the loop
continues through every subsequent configured item; stated both for the
loop and for a full `run_verification` whose first entry fails. -/
theorem claim_C2 :
    (∀ (cfg : VConfig) (fetcher : Int → HttpOutcome) (n : Int)
        (expected : List String) (rest : List (Int × List String))
        (ap : Bool) (errs : List String),
        get_item_labels n (fetcher n) = .ok ⟨none, errs⟩ →
        run_loop cfg fetcher ((n, expected) :: rest) ap =
          (run_loop cfg fetcher rest false).map
            (fun p =>
              (⟨n, classify_item cfg.issue_min cfg.issue_max n, false,
                 expected, none⟩ :: p.1, p.2)))
    ∧ (∀ (cfg : VConfig) (fetcher : Int → HttpOutcome) (n : Int)
        (expected : List String) (rest : List (Int × List String))
        (errs : List String),
        cfg.expected_labels = (n, expected) :: rest →
        get_item_labels n (fetcher n) = .ok ⟨none, errs⟩ →
        run_verification cfg fetcher =
          (run_loop cfg fetcher rest false).map
            (fun p =>
              ⟨⟨n, classify_item cfg.issue_min cfg.issue_max n, false,
                 expected, none⟩ :: p.1, p.2⟩)) := by
  constructor
  · exact run_loop_cons_none
  · intro cfg fetcher n expected rest errs hcfg h
    rw [run_verification, hcfg,
      run_loop_cons_none cfg fetcher n expected rest true errs h]
    cases hr : run_loop cfg fetcher rest false with
    | error e => simp [Except.map, Bind.bind, Except.bind]
    | ok pr =>
        obtain ⟨rs, fin⟩ := pr
        simp [Except.map, Bind.bind, Except.bind]

/-- Witness for C2: first item 404s, the second is still verified. -/
theorem claim_C2_witness :
    (get_item_labels 1 (.resp not_found_status_code "" (.ok .null)) =
      .ok ⟨none, []⟩)
    ∧ run_loop ⟨"r", 1, 15, [(1, ["a"]), (2, [])]⟩
        (fun k => if k == 1 then .resp not_found_status_code "" (.ok .null)
                  else .resp success_status_code "" (.ok (.obj [("x", .null)])))
        [(1, ["a"]), (2, [])] true =
      (run_loop ⟨"r", 1, 15, [(1, ["a"]), (2, [])]⟩
          (fun k => if k == 1 then .resp not_found_status_code "" (.ok .null)
                    else .resp success_status_code ""
                      (.ok (.obj [("x", .null)])))
          [(2, [])] false).map
        (fun p => (⟨1, issue_keyword, false, ["a"], none⟩ :: p.1, p.2)) :=
  ⟨rfl,
    claim_C2.1 ⟨"r", 1, 15, [(1, ["a"]), (2, [])]⟩
      (fun k => if k == 1 then .resp not_found_status_code "" (.ok .null)
                else .resp success_status_code "" (.ok (.obj [("x", .null)])))
      1 ["a"] [(2, [])] true [] rfl⟩

/-- Claim C3: the default comparison is true iff the sorted sequences are
elementwise equal — equivalently iff the two sequences are permutations of
one another (order-insensitive, duplicate-sensitive) — with the two
concrete examples; purity holds by construction, `compare_labels` being a
function of its arguments alone. -/
theorem claim_C3 :
    (∀ expected actual : List String,
        compare_labels expected (actual.map Json.str) = true ↔
          pySorted strLe actual = pySorted strLe expected)
    ∧ (∀ expected actual : List String,
        compare_labels expected (actual.map Json.str) = true ↔
          actual.Perm expected)
    ∧ compare_labels ["a", "b"] [Json.str "b", Json.str "a"] = true
    ∧ compare_labels ["a", "a"] [Json.str "a"] = false := by
  have h1 : ∀ expected actual : List String,
      compare_labels expected (actual.map Json.str) = true ↔
        pySorted strLe actual = pySorted strLe expected := by
    intro expected actual
    simp only [compare_labels, sort_labels, if_true]
    rw [pySorted_map_str]
    exact labelListEq_map_str _ _
  refine ⟨h1, ?_, by decide, by decide⟩
  intro expected actual
  rw [h1]
  exact ⟨perm_of_pySorted_strLe_eq, pySorted_strLe_perm_eq⟩

/-- Claim C5: an item is classified as an Issue iff its number lies in the
inclusive `issue_min`–`issue_max` range, and as a PR otherwise; the loop
body records exactly this classification; with bounds 1 and 15, item 10 is
an Issue and item 20 a PR. -/
theorem claim_C5 :
    (∀ issue_min issue_max n : Int,
        classify_item issue_min issue_max n = issue_keyword ↔
          issue_min ≤ n ∧ n ≤ issue_max)
    ∧ (∀ issue_min issue_max n : Int,
        classify_item issue_min issue_max n = pr_keyword ↔
          ¬(issue_min ≤ n ∧ n ≤ issue_max))
    ∧ (∀ (cfg : VConfig) (fetcher : Int → HttpOutcome) (n : Int)
        (expected : List String) (r : ItemResult),
        verify_item cfg fetcher n expected = Except.ok r →
        r.item_type = classify_item cfg.issue_min cfg.issue_max n)
    ∧ classify_item 1 15 10 = issue_keyword
    ∧ classify_item 1 15 20 = pr_keyword := by
  have hk : issue_keyword ≠ pr_keyword := by decide
  have hiff : ∀ issue_min issue_max n : Int,
      classify_item issue_min issue_max n = issue_keyword ↔
        issue_min ≤ n ∧ n ≤ issue_max := by
    intro mn mx n
    constructor
    · intro hcl
      by_contra hn
      have hb : (decide (mn ≤ n) && decide (n ≤ mx)) = false := by
        by_cases hm : mn ≤ n
        · by_cases hx : n ≤ mx
          · exact absurd ⟨hm, hx⟩ hn
          · simp [hx]
        · simp [hm]
      rw [classify_item] at hcl
      rw [hb] at hcl
      exact absurd hcl.symm hk
    · intro hmn
      simp [classify_item, hmn.1, hmn.2]
  refine ⟨hiff, ?_, verify_item_item_type, by decide, by decide⟩
  intro mn mx n
  constructor
  · intro hcl hn
    have := (hiff mn mx n).mpr hn
    rw [hcl] at this
    exact hk this.symm
  · intro hn
    by_cases hb : (decide (mn ≤ n) && decide (n ≤ mx)) = true
    · exfalso
      apply hn
      have hb2 := Bool.and_eq_true_iff.mp hb
      exact ⟨of_decide_eq_true hb2.1, of_decide_eq_true hb2.2⟩
    · rw [classify_item]
      rw [Bool.eq_false_iff.mpr hb]
      rfl

/-- Witness for C5: the loop body's record for item 10 carries the Issue
classification. -/
theorem claim_C5_witness :
    (verify_item ⟨"r", 1, 15, []⟩
        (fun _ => .resp not_found_status_code "" (.ok .null)) 10 [] =
      Except.ok ⟨10, issue_keyword, false, [], none⟩)
    ∧ (⟨10, issue_keyword, false, [], none⟩ : ItemResult).item_type =
        classify_item 1 15 10 :=
  ⟨rfl, claim_C5.2.2.1 ⟨"r", 1, 15, []⟩
      (fun _ => .resp not_found_status_code "" (.ok .null)) 10 [] _ rfl⟩

/-- Claim C8: one run produces exactly one per-item result for each entry
of `expected_labels`, in the mapping's insertion order (the recorded
item numbers and expected lists line up one-for-one with the entries). -/
theorem claim_C8 :
    ∀ (cfg : VConfig) (fetcher : Int → HttpOutcome) (rep : Report),
      run_verification cfg fetcher = .ok rep →
      rep.results.map (fun r => (r.item_number, r.expected)) =
        cfg.expected_labels := by
  intro cfg fetcher rep h
  rw [run_verification] at h
  cases hr : run_loop cfg fetcher cfg.expected_labels true with
  | error e => rw [hr] at h; simp [Bind.bind, Except.bind] at h
  | ok pr =>
      obtain ⟨rs, fin⟩ := pr
      rw [hr] at h
      simp [Bind.bind, Except.bind] at h
      subst h
      exact run_loop_keys cfg fetcher cfg.expected_labels true rs fin hr

/-- Witness for C8 on a two-entry configuration. -/
theorem claim_C8_witness :
    (run_verification ⟨"r", 1, 15, [(1, ["a"]), (20, ["b"])]⟩
        (fun _ => .exn "down") =
      .ok ⟨[⟨1, issue_keyword, false, ["a"], none⟩,
            ⟨20, pr_keyword, false, ["b"], none⟩], false⟩)
    ∧ ([⟨1, issue_keyword, false, ["a"], none⟩,
        ⟨20, pr_keyword, false, ["b"], none⟩] :
          List ItemResult).map (fun r => (r.item_number, r.expected)) =
        [(1, ["a"]), (20, ["b"])] :=
  ⟨rfl, claim_C8 ⟨"r", 1, 15, [(1, ["a"]), (20, ["b"])]⟩
      (fun _ => .exn "down") _ rfl⟩

/-- Claim C9: a success-status response whose parsed body is falsy is
treated exactly like a failure — the fetch returns the absent value with
no diagnostic, the very value a not-found produces, and the item is
recorded as failed. -/
theorem claim_C9 :
    (∀ (n : Int) (txt : String) (body : Json), body.truthy = false →
        get_item_labels n (.resp success_status_code txt (.ok body)) =
          .ok ⟨none, []⟩)
    ∧ (∀ (n : Int) (txt : String) (body : Except String Json),
        get_item_labels n (.resp not_found_status_code txt body) =
          .ok ⟨none, []⟩)
    ∧ (∀ (cfg : VConfig) (fetcher : Int → HttpOutcome) (n : Int)
        (expected : List String) (txt : String) (body : Json),
        body.truthy = false →
        fetcher n = .resp success_status_code txt (.ok body) →
        verify_item cfg fetcher n expected =
          .ok ⟨n, classify_item cfg.issue_min cfg.issue_max n, false,
               expected, none⟩) := by
  refine ⟨get_item_labels_falsy, get_item_labels_404, ?_⟩
  intro cfg fetcher n expected txt body hb hf
  refine verify_item_none cfg fetcher n expected [] ?_
  rw [hf]
  exact get_item_labels_falsy n txt body hb

/-- Witness for C9 with an empty-object body. -/
theorem claim_C9_witness :
    (Json.obj []).truthy = false
    ∧ (get_item_labels 1 (.resp success_status_code "" (.ok (.obj []))) =
        .ok ⟨none, []⟩)
    ∧ verify_item ⟨"r", 1, 15, []⟩
        (fun _ => .resp success_status_code "" (.ok (.obj []))) 1 ["bug"] =
        .ok ⟨1, issue_keyword, false, ["bug"], none⟩ :=
  ⟨rfl, claim_C9.1 1 "" (.obj []) rfl,
    claim_C9.2.2 ⟨"r", 1, 15, []⟩
      (fun _ => .resp success_status_code "" (.ok (.obj []))) 1 ["bug"] ""
      (.obj []) rfl rfl⟩

/-- Claim C10: a success-status response with a truthy object body lacking
a `labels` key fetches as the empty label list, and the item then passes
iff its expected label sequence is empty. -/
theorem claim_C10 :
    (∀ (n : Int) (txt : String) (kvs : List (String × Json)),
        kvs ≠ [] → Json.lookup kvs "labels" = none →
        get_item_labels n (.resp success_status_code txt (.ok (.obj kvs))) =
          .ok ⟨some [], []⟩)
    ∧ (∀ (cfg : VConfig) (fetcher : Int → HttpOutcome) (n : Int)
        (expected : List String) (txt : String)
        (kvs : List (String × Json)) (r : ItemResult),
        kvs ≠ [] → Json.lookup kvs "labels" = none →
        fetcher n = .resp success_status_code txt (.ok (.obj kvs)) →
        verify_item cfg fetcher n expected = Except.ok r →
        r.actual = some [] ∧ (r.passed = true ↔ expected = [])) := by
  refine ⟨get_item_labels_no_labels_key, ?_⟩
  intro cfg fetcher n expected txt kvs r hne hlk hf hv
  have hfl : get_item_labels n (fetcher n) = .ok ⟨some [], []⟩ := by
    rw [hf]
    exact get_item_labels_no_labels_key n txt kvs hne hlk
  rw [verify_item_some cfg fetcher n expected [] [] hfl] at hv
  cases hv
  refine ⟨rfl, ?_⟩
  show compare_labels expected [] = true ↔ expected = []
  simp only [compare_labels, sort_labels, if_true]
  show labelListEq (pySorted jsonLe []) (pySorted strLe expected) = true ↔ _
  rw [show pySorted jsonLe ([] : List Json) = [] from rfl,
    labelListEq_nil_left]
  exact pySorted_strLe_eq_nil expected

/-- Witness for C10 with body `{"x": null}` and an empty expectation. -/
theorem claim_C10_witness :
    (get_item_labels 2
        (.resp success_status_code "" (.ok (.obj [("x", Json.null)]))) =
      .ok ⟨some [], []⟩)
    ∧ ((⟨2, issue_keyword, true, [], some []⟩ : ItemResult).actual = some []
        ∧ ((⟨2, issue_keyword, true, [], some []⟩ : ItemResult).passed = true ↔
            ([] : List String) = [])) :=
  ⟨claim_C10.1 2 "" [("x", Json.null)] (by simp) rfl,
    claim_C10.2 ⟨"r", 1, 15, []⟩
      (fun _ => .resp success_status_code "" (.ok (.obj [("x", Json.null)])))
      2 [] "" [("x", Json.null)] ⟨2, issue_keyword, true, [], some []⟩
      (by simp) rfl rfl rfl⟩

/-- Claim C4 counterexample: the value `_get_github_api` returns for a 404
equals the value it returns for a 500 and for a transport exception —
`(False, None)` in all three cases — and `_get_item_labels` likewise hands
its caller the same absent value, so not-found and transient error are not
distinct values observable by the caller. -/
theorem claim_C4_counterexample :
    ((get_github_api "issues/1"
        (.resp not_found_status_code "" (.ok .null))).success =
      (get_github_api "issues/1" (.resp 500 "" (.ok .null))).success)
    ∧ ((get_github_api "issues/1"
        (.resp not_found_status_code "" (.ok .null))).result =
      (get_github_api "issues/1" (.resp 500 "" (.ok .null))).result)
    ∧ ((get_github_api "issues/1" (.exn "timeout")).success =
      (get_github_api "issues/1"
        (.resp not_found_status_code "" (.ok .null))).success)
    ∧ ((get_github_api "issues/1" (.exn "timeout")).result =
      (get_github_api "issues/1"
        (.resp not_found_status_code "" (.ok .null))).result)
    ∧ (get_item_labels 1 (.resp not_found_status_code "" (.ok .null)) =
        .ok ⟨none, []⟩)
    ∧ ((get_item_labels 1 (.resp 500 "" (.ok .null))).map
        (fun fr => fr.labels) = .ok none)
    ∧ ((get_item_labels 1 (.exn "timeout")).map (fun fr => fr.labels) =
        .ok none) :=
  ⟨rfl, rfl, rfl, rfl, rfl, rfl, rfl⟩

/-- Claim C4 (amended): the fetch returns only two caller-distinguishable
values — `(True, body)` on a success status, `(False, None)` on a 404, on
any other status, and on a transport failure alike; not-found and
transient failures differ only in the diagnostic emitted to the error
stream (none on 404, at least one line otherwise). -/
theorem claim_C4 :
    (∀ (ep txt : String) (j : Json),
        get_github_api ep (.resp success_status_code txt (.ok j)) =
          ⟨true, some j, []⟩)
    ∧ (∀ (ep txt : String) (body : Except String Json),
        get_github_api ep (.resp not_found_status_code txt body) =
          ⟨false, none, []⟩)
    ∧ (∀ (ep txt : String) (body : Except String Json) (status : Nat),
        status ≠ success_status_code → status ≠ not_found_status_code →
        (get_github_api ep (.resp status txt body)).success = false
        ∧ (get_github_api ep (.resp status txt body)).result = none
        ∧ (get_github_api ep (.resp status txt body)).stderr ≠ [])
    ∧ (∀ (ep msg : String),
        (get_github_api ep (.exn msg)).success = false
        ∧ (get_github_api ep (.exn msg)).result = none
        ∧ (get_github_api ep (.exn msg)).stderr ≠ []) := by
  refine ⟨get_github_api_200, get_github_api_404, ?_, ?_⟩
  · intro ep txt body status h200 h404
    rw [get_github_api_other ep txt body status h200 h404]
    exact ⟨rfl, rfl, by simp⟩
  · intro ep msg
    exact ⟨rfl, rfl, by simp [get_github_api]⟩

/-- Witness for the amended C4 at status 500. -/
theorem claim_C4_witness :
    ((500 : Nat) ≠ success_status_code ∧ (500 : Nat) ≠ not_found_status_code)
    ∧ ((get_github_api "issues/1" (.resp 500 "oops" (.ok .null))).success =
          false
        ∧ (get_github_api "issues/1" (.resp 500 "oops" (.ok .null))).result =
          none
        ∧ (get_github_api "issues/1" (.resp 500 "oops" (.ok .null))).stderr ≠
          []) :=
  ⟨⟨by decide, by decide⟩,
    claim_C4.2.2.1 "issues/1" "oops" (.ok .null) 500 (by decide) (by decide)⟩

/-- Claim C6 counterexample: a success response whose `labels` array holds
an object without a `"name"` field makes the label fetch raise a
`KeyError` that propagates to the caller, so the fetch does not resolve to
a value on every body shape. -/
theorem claim_C6_counterexample :
    get_item_labels 1 (.resp success_status_code ""
        (.ok (.obj [("labels", .arr [.obj []])]))) =
      .error (.keyError "name") := rfl

/-- Claim C6 (amended): the label fetch resolves to a value — never
propagating an exception — on every transport failure, every unparsable
body, and every non-success status regardless of body; on the success
status it resolves exactly when the parsed body is falsy or is an object
whose `labels` value, when present, is an array of objects each carrying a
`"name"` field or an iterable with no elements; outside that boundary —
in particular a label object lacking a `"name"` field — it raises. -/
theorem claim_C6 :
    (∀ (n : Int) (msg : String),
        ∃ fr, get_item_labels n (.exn msg) = .ok fr)
    ∧ (∀ (n : Int) (status : Nat) (txt e : String),
        ∃ fr, get_item_labels n (.resp status txt (.error e)) = .ok fr)
    ∧ (∀ (n : Int) (status : Nat) (txt : String)
        (body : Except String Json),
        status ≠ success_status_code →
        ∃ fr, get_item_labels n (.resp status txt body) = .ok fr)
    ∧ (∀ (n : Int) (txt : String) (j : Json),
        (∃ fr, get_item_labels n
            (.resp success_status_code txt (.ok j)) = .ok fr) ↔
          safe_body j = true) := by
  refine ⟨?_, ?_, ?_, ?_⟩
  · intro n msg
    exact ⟨_, rfl⟩
  · intro n status txt e
    exact ⟨_, get_item_labels_fail n _
      (get_github_api_success_false _ txt _ status e (Or.inl rfl))⟩
  · intro n status txt body h200
    exact ⟨_, get_item_labels_fail n _
      (get_github_api_success_false _ txt body status "" (Or.inr h200))⟩
  · intro n txt j
    constructor
    · rintro ⟨fr, hfr⟩
      cases hb : j.truthy with
      | false => simp [safe_body, hb]
      | true =>
          cases j with
          | null => simp [Json.truthy] at hb
          | bool b =>
              simp [get_item_labels, get_github_api, hb, dictGetD,
                Bind.bind, Except.bind] at hfr
          | num m =>
              simp [get_item_labels, get_github_api, hb, dictGetD,
                Bind.bind, Except.bind] at hfr
          | str sv =>
              simp [get_item_labels, get_github_api, hb, dictGetD,
                Bind.bind, Except.bind] at hfr
          | arr xs =>
              simp [get_item_labels, get_github_api, hb, dictGetD,
                Bind.bind, Except.bind] at hfr
          | obj kvs =>
              rw [safe_body, hb]
              simp only [Bool.not_true, Bool.false_or]
              cases hlk : Json.lookup kvs "labels" with
              | none => rfl
              | some lv =>
                  show safe_labels_val lv = true
                  rw [get_item_labels_200_obj n txt kvs lv hb hlk] at hfr
                  cases lv with
                  | arr ls =>
                      simp only [iterElems] at hfr
                      cases hex : extract_names ls with
                      | error e => rw [hex] at hfr; simp at hfr
                      | ok names => exact extract_names_all ls names hex
                  | str sv =>
                      simp only [iterElems] at hfr
                      cases hs : sv.toList with
                      | nil =>
                          have hse : sv = "" :=
                            string_eq_empty_of_toList sv hs
                          subst hse
                          rfl
                      | cons c cs =>
                          rw [hs] at hfr
                          simp [extract_names, Json.subscript, Bind.bind,
                            Except.bind] at hfr
                  | obj kvs2 =>
                      simp only [iterElems] at hfr
                      cases kvs2 with
                      | nil => rfl
                      | cons kv rest =>
                          simp [extract_names, Json.subscript, Bind.bind,
                            Except.bind] at hfr
                  | null => simp [iterElems] at hfr
                  | bool b2 => simp [iterElems] at hfr
                  | num m2 => simp [iterElems] at hfr
    · intro hsafe
      cases hb : j.truthy with
      | false => exact ⟨_, get_item_labels_falsy n txt j hb⟩
      | true =>
          cases j with
          | null => simp [Json.truthy] at hb
          | bool b => simp_all [safe_body, Json.truthy]
          | num m => simp_all [safe_body, Json.truthy]
          | str sv => simp_all [safe_body, Json.truthy]
          | arr xs => simp_all [safe_body, Json.truthy]
          | obj kvs =>
              have hne : kvs ≠ [] := by
                intro hk
                subst hk
                simp [Json.truthy] at hb
              rw [safe_body, hb] at hsafe
              simp only [Bool.not_true, Bool.false_or] at hsafe
              cases hlk : Json.lookup kvs "labels" with
              | none =>
                  exact ⟨_, get_item_labels_no_labels_key n txt kvs hne hlk⟩
              | some lv =>
                  rw [hlk] at hsafe
                  rw [get_item_labels_200_obj n txt kvs lv hb hlk]
                  cases lv with
                  | arr ls =>
                      obtain ⟨names, hnames⟩ := extract_names_ok ls hsafe
                      refine ⟨⟨some names, []⟩, ?_⟩
                      simp [iterElems, hnames]
                  | str sv =>
                      have hse : sv = "" := by
                        simpa [safe_labels_val] using hsafe
                      subst hse
                      exact ⟨⟨some [], []⟩, rfl⟩
                  | obj kvs2 =>
                      cases kvs2 with
                      | nil => exact ⟨⟨some [], []⟩, rfl⟩
                      | cons kv rest => simp [safe_labels_val] at hsafe
                  | null => simp [safe_labels_val] at hsafe
                  | bool b2 => simp [safe_labels_val] at hsafe
                  | num m2 => simp [safe_labels_val] at hsafe

/-- Witness for the amended C6: an unsafe body at a non-success status
still resolves, and a well-formed labelled body resolves at 200. -/
theorem claim_C6_witness :
    ((500 : Nat) ≠ success_status_code)
    ∧ (∃ fr, get_item_labels 1
        (.resp 500 "oops" (.ok (.obj [("labels", .arr [.obj []])]))) =
        .ok fr)
    ∧ (safe_body (.obj [("labels", .arr [.obj [("name", .str "bug")]])]) =
        true)
    ∧ ∃ fr, get_item_labels 1 (.resp success_status_code ""
        (.ok (.obj [("labels", .arr [.obj [("name", .str "bug")]])]))) =
        .ok fr :=
  ⟨by decide,
    claim_C6.2.2.1 1 500 "oops"
      (.ok (.obj [("labels", .arr [.obj []])])) (by decide),
    rfl,
    (claim_C6.2.2.2 1 ""
      (.obj [("labels", .arr [.obj [("name", .str "bug")]])])).mpr rfl⟩

/-- Claim C7: on a raw configuration mapping, loading succeeds iff the
three required fields are present and the `issue_range` value is a string
parsing as two ints separated by a hyphen; a parsed `issue_min` exceeding
`issue_max` is accepted at this layer. -/
theorem claim_C7 :
    (∀ kvs : List (String × Json),
        (∃ c, load_project_config (.obj kvs) = .ok c) ↔
          ((Json.lookup kvs "target_repo").isSome
           ∧ (Json.lookup kvs "expected_labels").isSome
           ∧ ∃ s issue_min issue_max,
               Json.lookup kvs "issue_range" = some (.str s)
               ∧ parse_issue_range s = some (issue_min, issue_max)))
    ∧ (∃ c, load_project_config
        (.obj [("target_repo", .str "r"), ("expected_labels", .obj []),
               ("issue_range", .str "15-1")]) = .ok c
        ∧ c.issue_min = 15 ∧ c.issue_max = 1) := by
  constructor
  · intro kvs
    constructor
    · rintro ⟨c, hc⟩
      rw [load_project_config] at hc
      cases h1 : Json.lookup kvs "target_repo" with
      | none => rw [h1] at hc; simp at hc
      | some v1 =>
          rw [h1] at hc
          cases h2 : Json.lookup kvs "expected_labels" with
          | none => rw [h2] at hc; simp at hc
          | some v2 =>
              rw [h2] at hc
              cases h3 : Json.lookup kvs "issue_range" with
              | none => rw [h3] at hc; simp at hc
              | some v3 =>
                  rw [h3] at hc
                  simp only [Option.isNone_some, Bool.false_eq_true,
                    if_false] at hc
                  cases v3 with
                  | str sv =>
                      cases h4 : parse_issue_range sv with
                      | none => simp [h4] at hc
                      | some p =>
                          obtain ⟨mn, mx⟩ := p
                          exact ⟨by simp [h1], by simp [h2],
                            sv, mn, mx, rfl, h4⟩
                  | null => simp at hc
                  | bool b => simp at hc
                  | num m => simp at hc
                  | arr xs => simp at hc
                  | obj kvs2 => simp at hc
    · rintro ⟨h1, h2, sv, mn, mx, h3, h4⟩
      obtain ⟨v1, hv1⟩ := Option.isSome_iff_exists.mp h1
      obtain ⟨v2, hv2⟩ := Option.isSome_iff_exists.mp h2
      refine ⟨⟨kvs, mn, mx⟩, ?_⟩
      simp [load_project_config, hv1, hv2, h3, h4]
  · exact ⟨⟨[("target_repo", .str "r"), ("expected_labels", .obj []),
      ("issue_range", .str "15-1")], 15, 1⟩, rfl, rfl, rfl⟩

end LabelVerifier
